import Mathlib

/-!
Formal model of the slackstandupbot scheduling and completion engine.

The embedding is a shallow one: instants are integers (minutes since the Unix
epoch; every time the program manipulates is a whole minute at this
granularity), the database is an explicit structure of row lists, and the two
stateful entry points of the program — the scheduler tick and the completion
evaluator — are pure functions from that state.

Sources modelled:
  * processSchedules          (src/scheduler.ts)
  * calculateNextRunAtUTC     (src/server.ts)
  * maybePostSummary          (src/summary.ts)
Timezone conversion (date-fns-tz / the IANA database) and the Postgres `now()`
clock are external collaborators of the program; they enter the model as
explicit parameters.
-/

namespace Standup

/-- One day, in minutes: both `interval '1 day'` added to a UTC timestamptz and
date-fns `addDays(_, 1)` on a UTC instant advance by exactly this amount. -/
def minutesPerDay : Int := 1440

/-! ## Scheduler (src/scheduler.ts, processSchedules) -/

/-- A row of the `schedules` table (0001_init.sql). -/
structure ScheduleRow where
  id : Nat
  user_id : String
  workspace_id : String
  next_run_at : Int
  is_active : Bool
  deriving DecidableEq, Repr

/-- A BullMQ `send_dm` job: `dmQueue.add("send_dm", { userId: sched.user_id })`. -/
structure DispatchJob where
  userId : String
  deriving DecidableEq, Repr

/-- The claim query of a tick:
`SELECT id, user_id, next_run_at FROM schedules WHERE next_run_at <= now()
FOR UPDATE SKIP LOCKED`. `locked` is the set of row ids currently locked by a
concurrent in-flight transaction (skipped by SKIP LOCKED). Note the query has
no condition on is_active. -/
def dueSchedules (schedules : List ScheduleRow) (locked : List Nat) (now : Int) :
    List ScheduleRow :=
  schedules.filter (fun s => decide (s.next_run_at ≤ now) && !(locked.contains s.id))

/-- The advance applied to one claimed row:
`UPDATE schedules SET next_run_at = next_run_at + interval '1 day' WHERE id = $1`
(one civil day added to a UTC timestamptz in a UTC session is a flat 24 hours). -/
def advanceNextRunAt (r : ScheduleRow) : ScheduleRow :=
  { r with next_run_at := r.next_run_at + minutesPerDay }

/-- The effect of that UPDATE on the whole table. -/
def updateNextRunAt (table : List ScheduleRow) (id : Nat) : List ScheduleRow :=
  table.map (fun s => if s.id == id then advanceNextRunAt s else s)

/-- The in-flight state of one tick transaction: the (uncommitted) table, the
jobs already handed to BullMQ, and whether every step so far succeeded. -/
structure TickState where
  table : List ScheduleRow
  jobs : List DispatchJob
  ok : Bool
  deriving DecidableEq, Repr

/-- The `for (const sched of rows)` loop body: enqueue one job for the row, then
advance its next_run_at. `enqueueOk` says whether `dmQueue.add` succeeds for a
given row; the first failure throws out of the loop, so later rows are not
processed. Jobs already enqueued are kept: BullMQ (Redis) is outside the
database transaction. -/
def runDispatchLoop (enqueueOk : ScheduleRow → Bool) :
    List ScheduleRow → TickState → TickState
  | [], st => st
  | r :: rest, st =>
    if enqueueOk r then
      runDispatchLoop enqueueOk rest
        ⟨updateNextRunAt st.table r.id, st.jobs ++ [⟨r.user_id⟩], true⟩
    else ⟨st.table, st.jobs, false⟩

/-- One scheduler tick (processSchedules): BEGIN; claim the due rows; loop over
them enqueueing and advancing; COMMIT — or, when an enqueue throws, ROLLBACK
(the catch block), which reverts every uncommitted UPDATE while the jobs
already given to BullMQ remain. Returns the table after the tick and the jobs
enqueued during it. -/
def processSchedules (schedules : List ScheduleRow) (locked : List Nat) (now : Int)
    (enqueueOk : ScheduleRow → Bool) : List ScheduleRow × List DispatchJob :=
  let rows := dueSchedules schedules locked now
  let st := runDispatchLoop enqueueOk rows ⟨schedules, [], true⟩
  if st.ok then (st.table, st.jobs) else (schedules, st.jobs)

/-! ## Next-run computation (src/server.ts, calculateNextRunAtUTC) -/

/-- The timezone conversions calculateNextRunAtUTC uses, as the program sees
them: date-fns-tz toZonedTime (a UTC instant to the zone's wall clock, both in
minutes) and fromZonedTime (a wall-clock reading back to a UTC instant). The
library and the IANA data behind it are external to the program. -/
structure TimezoneConv where
  toZonedTime : Int → Int
  fromZonedTime : Int → Int

/-- `setSeconds(setMinutes(setHours(z, localHour), localMinute), 0)` on a
wall-clock reading `z`: same calendar day, the requested hour and minute,
seconds zero. `z % 1440` is the floor-based time of day, as JS calendar
arithmetic computes it. -/
def setLocalClock (z hour minute : Int) : Int :=
  z - z % minutesPerDay + hour * 60 + minute

/-- The candidate wall-clock instant the function converts back to UTC: today's
date at the requested local time and, when that is not strictly after "now" in
target-zone wall-clock comparison, one calendar day later
(`if (nextRunInTargetTz <= nowInTargetTz) nextRunInTargetTz = addDays(nextRunInTargetTz, 1)`;
on the zone's plain wall-clock representation addDays is + 1440 minutes). -/
def nextRunCandidate (tz : TimezoneConv) (localHour localMinute now : Int) : Int :=
  let nowInTargetTz := tz.toZonedTime now
  let nextRunInTargetTz := setLocalClock nowInTargetTz localHour localMinute
  if nextRunInTargetTz ≤ nowInTargetTz then nextRunInTargetTz + minutesPerDay
  else nextRunInTargetTz

/-- calculateNextRunAtUTC: the candidate is resolved back to a UTC instant with
fromZonedTime only after the calendar-day adjustment. `localHour`/`localMinute`
are the two fields parse(localTime, "HH:mm") extracts. -/
def calculateNextRunAtUTC (tz : TimezoneConv) (localHour localMinute now : Int) : Int :=
  tz.fromZonedTime (nextRunCandidate tz localHour localMinute now)

/-! ## America/New_York offsets around a DST transition (IANA tzdata; the
Clock Source collaborator, external to the program) -/

/-- The UTC offset of America/New_York, in minutes, around the daylight-saving
transition of 2025-11-02 06:00 UTC (02:00 EDT falls back to 01:00 EST): UTC-4
before, UTC-5 after. 29367720 is that instant in minutes since the epoch. -/
def nyOffsetMin (t : Int) : Int :=
  if t < 29367720 then -240 else -300

/-- The local wall-clock time of day (minutes after local midnight) that a UTC
instant converts to, under an offset function. -/
def localMinuteOfDay (offset : Int → Int) (t : Int) : Int :=
  (t + offset t) % minutesPerDay

/-! ## Completion evaluator (src/summary.ts, maybePostSummary) -/

/-- A row of the `answers` table as maybePostSummary selects it:
`SELECT user_id, yesterday, today, blockers FROM answers WHERE ...`, plus the
submitted_at column the range condition reads. blockers is nullable. -/
structure AnswerRow where
  user_id : String
  workspace_id : String
  yesterday : String
  today : String
  blockers : Option String
  submitted_at : Int
  deriving DecidableEq, Repr

/-- A row of the `workspaces` table: summary_channel is nullable. -/
structure WorkspaceRow where
  workspace_id : String
  summary_channel : Option String
  deriving DecidableEq, Repr

/-- The database state the evaluator reads. -/
structure DB where
  workspaces : List WorkspaceRow
  schedules : List ScheduleRow
  answers : List AnswerRow
  deriving DecidableEq, Repr

/-- A database operation, as issued through client.query: the three SELECTs
maybePostSummary contains, and write shapes for stating what it never issues. -/
inductive DbOp where
  | selectWorkspaces
  | selectSchedules
  | selectAnswers
  | insertRow (table : String)
  | updateRow (table : String)
  | deleteRow (table : String)
  deriving DecidableEq, Repr

/-- Whether an operation only reads. -/
def DbOp.isRead : DbOp → Bool
  | .selectWorkspaces | .selectSchedules | .selectAnswers => true
  | _ => false

/-- One rendered participant line of the summary, by field; the program
assembles it into the string
"• <@uid> – *Yesterday:* y / *Today:* t / *Blockers:* b\n". -/
structure SummaryLine where
  user_id : String
  yesterday : String
  today : String
  blockers : String
  deriving DecidableEq, Repr

/-- JS `value || placeholder` on a non-null string column: the empty string is
falsy, so it renders as the placeholder. -/
def renderField (v : String) (placeholder : String) : String :=
  if v = "" then placeholder else v

/-- JS `value || placeholder` on a nullable column: null and "" both render
as the placeholder. -/
def renderOptField (v : Option String) (placeholder : String) : String :=
  match v with
  | none => placeholder
  | some s => if s = "" then placeholder else s

/-- The line built for one answer row:
`answer.yesterday || "_Not provided_"`, `answer.today || "_Not provided_"`,
`answer.blockers || "_None_"`. -/
def lineOfAnswer (a : AnswerRow) : SummaryLine :=
  { user_id := a.user_id
  , yesterday := renderField a.yesterday "_Not provided_"
  , today := renderField a.today "_Not provided_"
  , blockers := renderOptField a.blockers "_None_" }

/-- What is passed to chat.postMessage when a summary is posted: the channel,
the per-answer lines, and the "_Did not respond:_" list (empty when that
section is absent). -/
structure SummaryPayload where
  channel : String
  lines : List SummaryLine
  missedUsers : List String
  deriving DecidableEq, Repr

/-- How one maybePostSummary run ends. Every non-published variant is a plain
`return` in the source — a silent skip, not a thrown error. -/
inductive EvalOutcome where
  | noChannel
  | noParticipants
  | notReady
  | noAnswers
  | published (payload : SummaryPayload)
  deriving DecidableEq, Repr

/-- One evaluator run: its outcome, the database state when it finishes, and
the trace of database operations it issued, in order. -/
structure EvalRun where
  outcome : EvalOutcome
  db : DB
  trace : List DbOp
  deriving DecidableEq, Repr

/-- `SELECT summary_channel FROM workspaces WHERE workspace_id = $1`. -/
def workspaceRows (db : DB) (workspaceId : String) : List WorkspaceRow :=
  db.workspaces.filter (fun w => w.workspace_id == workspaceId)

/-- The guard `configRes.rows.length === 0 || !configRes.rows[0].summary_channel`:
no row, a NULL channel and an empty-string channel (all falsy) mean no
configured channel. -/
def channelOk : List WorkspaceRow → Option String
  | [] => none
  | w :: _ =>
    match w.summary_channel with
    | none => none
    | some c => if c = "" then none else some c

/-- The configured summary channel of a workspace, if any. -/
def channelFor (db : DB) (workspaceId : String) : Option String :=
  channelOk (workspaceRows db workspaceId)

/-- `SELECT user_id FROM schedules WHERE workspace_id = $1 AND is_active = TRUE`,
collected into a JS Set (distinct user ids). -/
def activeParticipants (db : DB) (workspaceId : String) : List String :=
  ((db.schedules.filter (fun s => s.workspace_id == workspaceId && s.is_active)).map
    (fun s => s.user_id)).dedup

/-- `SELECT ... FROM answers WHERE workspace_id = $1 AND submitted_at >= $2 AND
submitted_at < $3` with the range [date, date + one UTC calendar day):
`endDate.setUTCDate(startDate.getUTCDate() + 1)`. -/
def answersInRange (db : DB) (workspaceId : String) (date : Int) : List AnswerRow :=
  db.answers.filter (fun a =>
    a.workspace_id == workspaceId && decide (date ≤ a.submitted_at) &&
      decide (a.submitted_at < date + minutesPerDay))

/-- The JS Set of distinct user ids that answered in the range. -/
def answeredUsers (db : DB) (workspaceId : String) (date : Int) : List String :=
  ((answersInRange db workspaceId date).map (fun a => a.user_id)).dedup

/-- Step 5 of the source: `allAnswered` is false unless the participant set is
non-empty and `every` participant id is in the answered set. -/
def allAnsweredB (db : DB) (workspaceId : String) (date : Int) : Bool :=
  !(activeParticipants db workspaceId).isEmpty &&
    (activeParticipants db workspaceId).all
      (fun u => (answeredUsers db workspaceId date).contains u)

/-- `const CUTOFF_HOUR_UTC = 17`. -/
def CUTOFF_HOUR_UTC : Int := 17

/-- The UTC midnight of the calendar day an instant lies in. -/
def dayStartUTC (t : Int) : Int := t - t % minutesPerDay

/-- Step 6 of the source: `cutoffTime = new Date(date); cutoffTime.setUTCHours(17, 0, 0, 0)` —
17:00 UTC of the summary day. -/
def cutoffTimeFor (date : Int) : Int := dayStartUTC date + CUTOFF_HOUR_UTC * 60

/-- `const pastCutoff = now >= cutoffTime`. -/
def pastCutoffB (date now : Int) : Bool := decide (cutoffTimeFor date ≤ now)

/-- The three SELECTs a run that reaches step 4 has issued, in order. -/
def fullTrace : List DbOp := [.selectWorkspaces, .selectSchedules, .selectAnswers]

/-- maybePostSummary, step for step: load the channel (skip when absent), load
the active participants (skip when none), load the day's answers, compute
allAnswered and pastCutoff, and when `allAnswered || pastCutoff` either skip
(no answers at all) or build and post the summary: one line per answer row, and
— when past cutoff with not everyone answered — the non-responder list. The
`summaries_posted` duplicate check of the source is commented out, so no branch
consults or records prior publications, and no branch writes the database. -/
def maybePostSummary (db : DB) (workspaceId : String) (date now : Int) : EvalRun :=
  match channelFor db workspaceId with
  | none => { outcome := .noChannel, db := db, trace := [.selectWorkspaces] }
  | some summaryChannel =>
    if (activeParticipants db workspaceId).isEmpty then
      { outcome := .noParticipants, db := db
      , trace := [.selectWorkspaces, .selectSchedules] }
    else if allAnsweredB db workspaceId date || pastCutoffB date now then
      if (answersInRange db workspaceId date).isEmpty then
        { outcome := .noAnswers, db := db, trace := fullTrace }
      else
        { outcome := .published
            { channel := summaryChannel
            , lines := (answersInRange db workspaceId date).map lineOfAnswer
            , missedUsers :=
                if pastCutoffB date now && !allAnsweredB db workspaceId date then
                  (activeParticipants db workspaceId).filter
                    (fun u => !((answeredUsers db workspaceId date).contains u))
                else [] }
        , db := db, trace := fullTrace }
    else { outcome := .notReady, db := db, trace := fullTrace }

/-- 1 when a run's outcome called chat.postMessage, else 0. -/
def publishCount : EvalOutcome → Nat
  | .published _ => 1
  | _ => 0

/-- The lines of a published outcome ([] otherwise). -/
def linesOf : EvalOutcome → List SummaryLine
  | .published p => p.lines
  | _ => []

/-- Two evaluator runs for the same (workspace, day) with identical inputs, the
second starting from the database state the first left behind: how many
chat.postMessage calls the pair makes. -/
def twoRunsPublishCount (db : DB) (workspaceId : String) (date now : Int) : Nat :=
  publishCount (maybePostSummary db workspaceId date now).outcome +
    publishCount
      (maybePostSummary (maybePostSummary db workspaceId date now).db workspaceId date now).outcome

/-! ## Concrete instances used as witnesses and counterexamples -/

/-- A fixed-offset zone (UTC-5, standard Eastern time): wall clock = UTC - 300. -/
def estZone : TimezoneConv :=
  { toZonedTime := fun t => t - 300, fromZonedTime := fun w => w + 300 }

/-- A schedule row whose next_run_at is 2025-11-01 13:00 UTC = 09:00 EDT
(29366700 minutes since the epoch), the day before the 2025 fall-back. -/
def nyRow : ScheduleRow :=
  { id := 7, user_id := "U", workspace_id := "W", next_run_at := 29366700, is_active := true }

/-- A due but disabled schedule row. -/
def inactiveDue : ScheduleRow :=
  { id := 1, user_id := "U", workspace_id := "W", next_run_at := 0, is_active := false }

/-- Two due, active rows for the batch-abort scenarios. -/
def rowOne : ScheduleRow :=
  { id := 1, user_id := "U1", workspace_id := "W", next_run_at := 0, is_active := true }

/-- Second row of the batch. -/
def rowTwo : ScheduleRow :=
  { id := 2, user_id := "U2", workspace_id := "W", next_run_at := 0, is_active := true }

/-- An enqueue that fails for every row. -/
def enqAllFail : ScheduleRow → Bool := fun _ => false

/-- An enqueue that fails exactly for row id 1. -/
def enqFailFirst : ScheduleRow → Bool := fun r => !(r.id == 1)

/-- An answer with an empty blockers field. -/
def aC1 : AnswerRow :=
  { user_id := "U", workspace_id := "W", yesterday := "did", today := "do"
  , blockers := some "", submitted_at := 100 }

/-- A one-participant workspace whose participant answered once: ready to
publish as soon as the answer is in. -/
def dbC1 : DB :=
  { workspaces := [{ workspace_id := "W", summary_channel := some "C" }]
  , schedules := [{ id := 1, user_id := "U", workspace_id := "W", next_run_at := 0, is_active := true }]
  , answers := [aC1] }

/-- First of two answers the same user submitted the same day. -/
def aU1 : AnswerRow :=
  { user_id := "U", workspace_id := "W", yesterday := "a", today := "b"
  , blockers := some "", submitted_at := 100 }

/-- Second answer by the same user the same day. -/
def aU2 : AnswerRow :=
  { user_id := "U", workspace_id := "W", yesterday := "c", today := "d"
  , blockers := none, submitted_at := 200 }

/-- A one-participant workspace whose participant answered twice that day. -/
def dbC8 : DB :=
  { workspaces := [{ workspace_id := "W", summary_channel := some "C" }]
  , schedules := [{ id := 1, user_id := "U", workspace_id := "W", next_run_at := 0, is_active := true }]
  , answers := [aU1, aU2] }

/-! ## Helper lemmas -/

/-- A non-nil list is not isEmpty. -/
theorem isEmpty_false_of_ne_nil {α : Type} (l : List α) (h : l ≠ []) :
    l.isEmpty = false := by
  cases l with
  | nil => exact absurd rfl h
  | cons a t => rfl

/-- A non-isEmpty list is not nil. -/
theorem ne_nil_of_isEmpty_false {α : Type} (l : List α) (h : l.isEmpty = false) :
    l ≠ [] := by
  cases l with
  | nil => exact absurd h (by simp)
  | cons a t => exact List.cons_ne_nil a t

/-- The source's allAnswered boolean, as the subset statement of the spec, for
a non-empty participant set. -/
theorem allAnsweredB_iff (db : DB) (workspaceId : String) (date : Int)
    (hne : (activeParticipants db workspaceId).isEmpty = false) :
    allAnsweredB db workspaceId date = true ↔
      ∀ u ∈ activeParticipants db workspaceId, u ∈ answeredUsers db workspaceId date := by
  unfold allAnsweredB
  rw [Bool.and_eq_true, List.all_eq_true]
  constructor
  · rintro ⟨-, hall⟩ u hu
    exact List.elem_iff.mp (hall u hu)
  · intro hall
    exact ⟨by simp [hne], fun u hu => List.elem_iff.mpr (hall u hu)⟩

/-- maybePostSummary finishes with the same database state it started from:
every branch of the source only SELECTs. -/
theorem maybePostSummary_db_eq (db : DB) (workspaceId : String) (date now : Int) :
    (maybePostSummary db workspaceId date now).db = db := by
  unfold maybePostSummary
  split
  · rfl
  · split
    · rfl
    · split
      · split
        · rfl
        · rfl
      · rfl

/-- When some claimed row's enqueue fails, the loop ends in the failed state. -/
theorem runDispatchLoop_ok_false (enqueueOk : ScheduleRow → Bool) :
    ∀ (rows : List ScheduleRow) (st : TickState),
      (∃ r ∈ rows, enqueueOk r = false) → (runDispatchLoop enqueueOk rows st).ok = false := by
  intro rows
  induction rows with
  | nil => intro st h; simp at h
  | cons r rest ih =>
    intro st h
    by_cases hr : enqueueOk r = true
    · rw [runDispatchLoop, if_pos hr]
      apply ih
      obtain ⟨x, hx, hfx⟩ := h
      rcases List.mem_cons.mp hx with rfl | hx'
      · rw [hr] at hfx; exact absurd hfx (by simp)
      · exact ⟨x, hx', hfx⟩
    · rw [runDispatchLoop, if_neg hr]

/-- The jobs a tick hands to BullMQ: one per claimed row up to (not including)
the first row whose enqueue fails. -/
theorem runDispatchLoop_jobs (enqueueOk : ScheduleRow → Bool) :
    ∀ (rows : List ScheduleRow) (st : TickState),
      (runDispatchLoop enqueueOk rows st).jobs =
        st.jobs ++ (rows.takeWhile enqueueOk).map (fun r => { userId := r.user_id }) := by
  intro rows
  induction rows with
  | nil => intro st; simp [runDispatchLoop]
  | cons r rest ih =>
    intro st
    by_cases hr : enqueueOk r = true
    · rw [runDispatchLoop, if_pos hr, ih, List.takeWhile_cons, if_pos hr]
      simp
    · rw [runDispatchLoop, if_neg hr, List.takeWhile_cons, if_neg hr]
      simp

/-! ## C1, C2, C3, C10 -/

/-- C1 counterexample: on a workspace that is ready to publish, two evaluator
runs with identical inputs make two chat.postMessage calls, not exactly one —
the source contains no publication claim (the summaries_posted
insert-or-detect-conflict is commented out). -/
theorem maybePostSummary_double_publish_cex :
    twoRunsPublishCount dbC1 "W" 0 500 = 2 ∧ twoRunsPublishCount dbC1 "W" 0 500 ≠ 1 := by
  decide

/-- C1 (amended): invoking the Evaluator twice for the same (workspace, day)
with identical inputs publishes exactly twice as often as one invocation does:
no branch records a publication, so the second run repeats whatever the first
did. -/
theorem maybePostSummary_twice_publishes_twice (db : DB) (workspaceId : String)
    (date now : Int) :
    twoRunsPublishCount db workspaceId date now =
      2 * publishCount (maybePostSummary db workspaceId date now).outcome := by
  unfold twoRunsPublishCount
  rw [maybePostSummary_db_eq]
  omega

/-- C2: the tick's claim query has no is_active condition, so a due but
disabled row is claimed and dispatched: disabling does not take effect. -/
theorem scheduler_claims_inactive_entry :
    inactiveDue.is_active = false ∧ inactiveDue ∈ dueSchedules [inactiveDue] [] 5 ∧
      (processSchedules [inactiveDue] [] 5 (fun _ => true)).2 = [{ userId := "U" }] := by
  decide

/-- C3: advancing next_run_at by a flat day across the America/New_York
fall-back of 2025-11-02: 09:00 EDT (minute-of-day 540) becomes 08:00 EST
(minute-of-day 480), not 09:00 — the local fire time drifts with the offset
change. -/
theorem flat_advance_shifts_local_time_across_dst :
    localMinuteOfDay nyOffsetMin nyRow.next_run_at = 9 * 60 ∧
      localMinuteOfDay nyOffsetMin (advanceNextRunAt nyRow).next_run_at = 8 * 60 ∧
      (8 * 60 : Int) ≠ 9 * 60 := by
  decide

/-- C10: every maybePostSummary run leaves the database unchanged and issues
only read (SELECT) operations, whether or not it publishes. -/
theorem maybePostSummary_readonly (db : DB) (workspaceId : String) (date now : Int) :
    (maybePostSummary db workspaceId date now).db = db ∧
      ∀ op ∈ (maybePostSummary db workspaceId date now).trace, op.isRead = true := by
  refine ⟨maybePostSummary_db_eq db workspaceId date now, ?_⟩
  have h1 : ∀ op ∈ [DbOp.selectWorkspaces], op.isRead = true := by decide
  have h2 : ∀ op ∈ [DbOp.selectWorkspaces, DbOp.selectSchedules], op.isRead = true := by decide
  have h3 : ∀ op ∈ fullTrace, op.isRead = true := by decide
  unfold maybePostSummary
  split
  · exact h1
  · split
    · exact h2
    · split
      · split
        · exact h3
        · exact h3
      · exact h3

/-! ## C6, C7 -/

/-- C6: when the enqueue of a due, claimed entry fails, the whole transaction
rolls back, so that entry's next_run_at (indeed the whole table) is unchanged
after the tick and the entry is still due, re-claimable on the next tick (no
lock outlives the rolled-back transaction). -/
theorem processSchedules_enqueue_failure_preserves_next_run
    (schedules : List ScheduleRow) (locked : List Nat) (now : Int)
    (enqueueOk : ScheduleRow → Bool) (r : ScheduleRow)
    (hdue : r ∈ dueSchedules schedules locked now) (hfail : enqueueOk r = false) :
    (processSchedules schedules locked now enqueueOk).1 = schedules ∧
      r ∈ dueSchedules (processSchedules schedules locked now enqueueOk).1 [] now := by
  have hok : (runDispatchLoop enqueueOk (dueSchedules schedules locked now)
      ⟨schedules, [], true⟩).ok = false :=
    runDispatchLoop_ok_false enqueueOk _ _ ⟨r, hdue, hfail⟩
  have h1 : (processSchedules schedules locked now enqueueOk).1 = schedules := by
    unfold processSchedules
    rw [if_neg (by simp [hok])]
  refine ⟨h1, ?_⟩
  rw [h1]
  unfold dueSchedules at hdue ⊢
  rw [List.mem_filter] at hdue ⊢
  refine ⟨hdue.1, ?_⟩
  have h2 := hdue.2
  simp only [Bool.and_eq_true, decide_eq_true_eq] at h2 ⊢
  simpa using h2.1

/-- C6 witness: a single due row whose enqueue always fails is untouched by
the tick and still due afterwards. -/
theorem processSchedules_enqueue_failure_preserves_next_run_witness :
    (processSchedules [rowOne] [] 5 enqAllFail).1 = [rowOne] ∧
      rowOne ∈ dueSchedules (processSchedules [rowOne] [] 5 enqAllFail).1 [] 5 :=
  processSchedules_enqueue_failure_preserves_next_run [rowOne] [] 5 enqAllFail rowOne
    (by decide) (by decide)

/-- C7 counterexample: two due entries, the first one's enqueue fails while the
second one's would succeed — yet the tick enqueues nothing and advances
nothing: the failure aborts the remaining batch instead of being scoped to the
single failing entry. -/
theorem processSchedules_batch_abort_cex :
    rowTwo ∈ dueSchedules [rowOne, rowTwo] [] 5 ∧ enqFailFirst rowTwo = true ∧
      (processSchedules [rowOne, rowTwo] [] 5 enqFailFirst).2 = [] ∧
      (processSchedules [rowOne, rowTwo] [] 5 enqFailFirst).1 = [rowOne, rowTwo] := by
  decide

/-- C7 (amended): a failing enqueue aborts the whole tick: the single
transaction rolls back every advance, and entries after the first failing one
are not processed at all — only the claimed rows strictly before the first
failure got their jobs enqueued (those jobs survive, being outside the
database transaction). All entries remain due for the next tick. -/
theorem processSchedules_failure_aborts_batch
    (schedules : List ScheduleRow) (locked : List Nat) (now : Int)
    (enqueueOk : ScheduleRow → Bool)
    (hfail : ∃ r ∈ dueSchedules schedules locked now, enqueueOk r = false) :
    (processSchedules schedules locked now enqueueOk).1 = schedules ∧
      (processSchedules schedules locked now enqueueOk).2 =
        ((dueSchedules schedules locked now).takeWhile enqueueOk).map
          (fun r => { userId := r.user_id }) := by
  have hok : (runDispatchLoop enqueueOk (dueSchedules schedules locked now)
      ⟨schedules, [], true⟩).ok = false :=
    runDispatchLoop_ok_false enqueueOk _ _ hfail
  have hjobs := runDispatchLoop_jobs enqueueOk (dueSchedules schedules locked now)
    ⟨schedules, [], true⟩
  constructor
  · unfold processSchedules
    rw [if_neg (by simp [hok])]
  · unfold processSchedules
    rw [if_neg (by simp [hok])]
    simpa using hjobs

/-- C7 amended-claim witness: with every enqueue failing, the tick changes no
row and enqueues exactly the jobs before the first failure (none). -/
theorem processSchedules_failure_aborts_batch_witness :
    (processSchedules [rowOne, rowTwo] [] 5 enqAllFail).1 = [rowOne, rowTwo] ∧
      (processSchedules [rowOne, rowTwo] [] 5 enqAllFail).2 =
        ((dueSchedules [rowOne, rowTwo] [] 5).takeWhile enqAllFail).map
          (fun r => { userId := r.user_id }) :=
  processSchedules_failure_aborts_batch [rowOne, rowTwo] [] 5 enqAllFail (by decide)

/-! ## Inversion of a published run -/

/-- What must have held, and what the payload is, when a run published. -/
theorem maybePostSummary_published_inv (db : DB) (workspaceId : String)
    (date now : Int) (p : SummaryPayload)
    (h : (maybePostSummary db workspaceId date now).outcome = .published p) :
    p.lines = (answersInRange db workspaceId date).map lineOfAnswer ∧
      p.missedUsers = (if pastCutoffB date now && !allAnsweredB db workspaceId date then
          (activeParticipants db workspaceId).filter
            (fun u => !((answeredUsers db workspaceId date).contains u))
        else []) ∧
      (activeParticipants db workspaceId).isEmpty = false ∧
      (allAnsweredB db workspaceId date || pastCutoffB date now) = true ∧
      (answersInRange db workspaceId date).isEmpty = false := by
  unfold maybePostSummary at h
  split at h
  · exact absurd h (by simp)
  · split at h
    · exact absurd h (by simp)
    · next hpart =>
      split at h
      · next hready =>
        split at h
        · exact absurd h (by simp)
        · next hans =>
          injection h with h
          subst h
          exact ⟨rfl, rfl, by simpa using hpart, hready, by simpa using hans⟩
      · exact absurd h (by simp)

/-! ## C9 -/

/-- C9: in any published summary, an answer whose blockers column is NULL or
the empty string gets its line with the "_None_" placeholder in the blockers
slot — never the empty string — and an empty yesterday/today field likewise
renders the "_Not provided_" placeholder. -/
theorem published_blockers_placeholder (db : DB) (workspaceId : String)
    (date now : Int) (p : SummaryPayload) (a : AnswerRow)
    (hpub : (maybePostSummary db workspaceId date now).outcome = .published p)
    (ha : a ∈ answersInRange db workspaceId date)
    (hb : a.blockers = none ∨ a.blockers = some "") :
    lineOfAnswer a ∈ p.lines ∧ (lineOfAnswer a).blockers = "_None_" ∧
      (lineOfAnswer a).blockers ≠ "" ∧
      (a.yesterday = "" → (lineOfAnswer a).yesterday = "_Not provided_") ∧
      (a.today = "" → (lineOfAnswer a).today = "_Not provided_") := by
  obtain ⟨hlines, -, -, -, -⟩ :=
    maybePostSummary_published_inv db workspaceId date now p hpub
  refine ⟨?_, ?_, ?_, ?_, ?_⟩
  · rw [hlines]; exact List.mem_map_of_mem _ ha
  · rcases hb with hb | hb <;> simp [lineOfAnswer, renderOptField, hb]
  · rcases hb with hb | hb <;> simp [lineOfAnswer, renderOptField, hb]
  · intro hy; simp [lineOfAnswer, renderField, hy]
  · intro ht; simp [lineOfAnswer, renderField, ht]

/-- C9 witness: the one-answer workspace publishes, and the answer with
blockers = "" renders "_None_". -/
theorem published_blockers_placeholder_witness :
    lineOfAnswer aC1 ∈
        (SummaryPayload.mk "C" [lineOfAnswer aC1] []).lines ∧
      (lineOfAnswer aC1).blockers = "_None_" ∧ (lineOfAnswer aC1).blockers ≠ "" ∧
      (aC1.yesterday = "" → (lineOfAnswer aC1).yesterday = "_Not provided_") ∧
      (aC1.today = "" → (lineOfAnswer aC1).today = "_Not provided_") :=
  published_blockers_placeholder dbC1 "W" 0 500 (SummaryPayload.mk "C" [lineOfAnswer aC1] [])
    aC1 (by decide) (by decide) (Or.inr (by decide))

/-! ## C8 -/

/-- C8 counterexample: a participant who answered twice that day gets two lines
in the published payload, though there is one distinct answered user — the
payload has one line per answer row, not one per answered participant. -/
theorem one_line_per_user_cex :
    (linesOf (maybePostSummary dbC8 "W" 0 0).outcome).length = 2 ∧
      (answeredUsers dbC8 "W" 0).length = 1 ∧
      (linesOf (maybePostSummary dbC8 "W" 0 0).outcome).length ≠
        (answeredUsers dbC8 "W" 0).length := by
  decide

/-- C8 (amended): every published payload has exactly one line per answer row
of the day (a user with several answers appears once per answer), and it
carries a non-empty non-responder list exactly when the cutoff has passed and
not every active participant answered. -/
theorem published_lines_one_per_answer_row (db : DB) (workspaceId : String)
    (date now : Int) (p : SummaryPayload)
    (hpub : (maybePostSummary db workspaceId date now).outcome = .published p) :
    p.lines = (answersInRange db workspaceId date).map lineOfAnswer ∧
      (p.missedUsers ≠ [] ↔ (cutoffTimeFor date ≤ now ∧
        ¬∀ u ∈ activeParticipants db workspaceId, u ∈ answeredUsers db workspaceId date)) := by
  obtain ⟨hlines, hmissed, hne, -, -⟩ :=
    maybePostSummary_published_inv db workspaceId date now p hpub
  have hallB := allAnsweredB_iff db workspaceId date hne
  refine ⟨hlines, ?_⟩
  rw [hmissed]
  constructor
  · intro hne'
    by_cases hc : (pastCutoffB date now && !allAnsweredB db workspaceId date) = true
    · rw [Bool.and_eq_true, Bool.not_eq_true'] at hc
      refine ⟨by simpa [pastCutoffB] using hc.1, ?_⟩
      intro hall
      rw [← hallB] at hall
      rw [hall] at hc
      exact absurd hc.2 (by simp)
    · rw [if_neg hc] at hne'
      exact absurd rfl hne'
  · rintro ⟨hcut, hnall⟩
    have hcB : pastCutoffB date now = true := by simp [pastCutoffB, hcut]
    have haB : allAnsweredB db workspaceId date = false := by
      rcases Bool.eq_false_or_eq_true (allAnsweredB db workspaceId date) with hx | hx
      · exact absurd (hallB.mp hx) hnall
      · exact hx
    rw [if_pos (by simp [hcB, haB])]
    rw [not_forall] at hnall
    obtain ⟨u, hu⟩ := hnall
    rw [Classical.not_imp] at hu
    intro hempty
    have humem : u ∈ (activeParticipants db workspaceId).filter
        (fun v => !((answeredUsers db workspaceId date).contains v)) := by
      rw [List.mem_filter]
      refine ⟨hu.1, ?_⟩
      rw [Bool.not_eq_true']
      rcases Bool.eq_false_or_eq_true ((answeredUsers db workspaceId date).contains u) with hx | hx
      · exact absurd (List.elem_iff.mp hx) hu.2
      · exact hx
    rw [hempty] at humem
    exact absurd humem (List.not_mem_nil u)

/-- C8 amended-claim witness: the double-answer workspace publishes two lines
(one per answer row) and, being before cutoff with everyone answered, no
non-responder list. -/
theorem published_lines_one_per_answer_row_witness :
    (SummaryPayload.mk "C" [lineOfAnswer aU1, lineOfAnswer aU2] []).lines =
        (answersInRange dbC8 "W" 0).map lineOfAnswer ∧
      ((SummaryPayload.mk "C" [lineOfAnswer aU1, lineOfAnswer aU2] []).missedUsers ≠ [] ↔
        (cutoffTimeFor 0 ≤ 0 ∧
          ¬∀ u ∈ activeParticipants dbC8 "W", u ∈ answeredUsers dbC8 "W" 0)) :=
  published_lines_one_per_answer_row dbC8 "W" 0 0
    (SummaryPayload.mk "C" [lineOfAnswer aU1, lineOfAnswer aU2] []) (by decide)

/-! ## C5 -/

/-- A run publishes exactly when the source's four boolean guards line up. -/
theorem publishes_iff_guards (db : DB) (workspaceId : String) (date now : Int) :
    (∃ p, (maybePostSummary db workspaceId date now).outcome = .published p) ↔
      (channelFor db workspaceId ≠ none ∧
        (activeParticipants db workspaceId).isEmpty = false ∧
        (allAnsweredB db workspaceId date || pastCutoffB date now) = true ∧
        (answersInRange db workspaceId date).isEmpty = false) := by
  constructor
  · rintro ⟨p, hp⟩
    obtain ⟨-, -, hpart, hready, hans⟩ :=
      maybePostSummary_published_inv db workspaceId date now p hp
    refine ⟨?_, hpart, hready, hans⟩
    intro hch
    unfold maybePostSummary at hp
    rw [hch] at hp
    exact absurd hp (by simp)
  · rintro ⟨hch, hpart, hready, hans⟩
    rcases hchs : channelFor db workspaceId with _ | c
    · exact absurd hchs hch
    · have hout : (maybePostSummary db workspaceId date now).outcome =
          .published (SummaryPayload.mk c
            ((answersInRange db workspaceId date).map lineOfAnswer)
            (if pastCutoffB date now && !allAnsweredB db workspaceId date then
              (activeParticipants db workspaceId).filter
                (fun u => !((answeredUsers db workspaceId date).contains u))
            else [])) := by
        simp only [maybePostSummary, hchs]
        rw [if_neg (by simp [hpart]), if_pos hready, if_neg (by simp [hans])]
      exact ⟨_, hout⟩

/-- C5: the Evaluator attempts publication iff a summary channel is configured,
the active participant set is non-empty, readiness holds (every active
participant is among the day's distinct answered users, or now is at or past
the day's 17:00 UTC cutoff), and at least one answer exists in
[day-start, day-end); a missing channel or an empty participant set ends the
run in the corresponding silent-skip outcome (a plain return, not an error). -/
theorem maybePostSummary_publish_iff (db : DB) (workspaceId : String) (date now : Int) :
    ((∃ p, (maybePostSummary db workspaceId date now).outcome = .published p) ↔
      (channelFor db workspaceId ≠ none ∧ activeParticipants db workspaceId ≠ [] ∧
        ((∀ u ∈ activeParticipants db workspaceId, u ∈ answeredUsers db workspaceId date) ∨
          cutoffTimeFor date ≤ now) ∧
        answersInRange db workspaceId date ≠ [])) ∧
    (channelFor db workspaceId = none →
      (maybePostSummary db workspaceId date now).outcome = .noChannel) ∧
    (channelFor db workspaceId ≠ none → activeParticipants db workspaceId = [] →
      (maybePostSummary db workspaceId date now).outcome = .noParticipants) := by
  refine ⟨?_, ?_, ?_⟩
  · rw [publishes_iff_guards]
    constructor
    · rintro ⟨h1, h2, h3, h4⟩
      refine ⟨h1, ne_nil_of_isEmpty_false _ h2, ?_, ne_nil_of_isEmpty_false _ h4⟩
      rw [Bool.or_eq_true] at h3
      rcases h3 with h | h
      · exact Or.inl ((allAnsweredB_iff db workspaceId date h2).mp h)
      · exact Or.inr (by simpa [pastCutoffB] using h)
    · rintro ⟨h1, h2, h3, h4⟩
      have hne : (activeParticipants db workspaceId).isEmpty = false :=
        isEmpty_false_of_ne_nil _ h2
      refine ⟨h1, hne, ?_, isEmpty_false_of_ne_nil _ h4⟩
      rw [Bool.or_eq_true]
      rcases h3 with h | h
      · exact Or.inl ((allAnsweredB_iff db workspaceId date hne).mpr h)
      · exact Or.inr (by simpa [pastCutoffB] using h)
  · intro hch
    unfold maybePostSummary
    rw [hch]
  · intro hch hnil
    rcases hchs : channelFor db workspaceId with _ | c
    · exact absurd hchs hch
    · simp only [maybePostSummary, hchs]
      rw [if_pos (by simp [hnil])]

/-! ## C4 -/

/-- C4: for a valid wall-clock time h:m and a timezone conversion that is
strictly monotone over the relevant interval and resolves the chosen candidate
exactly (the requested local time exists on the chosen day — `hexact` is the
round-trip fromZonedTime/toZonedTime law at the one wall-clock value the
function converts), calculateNextRunAtUTC returns a UTC instant whose local
conversion reads exactly h:m (as the minute of the local day, seconds zero by
construction), which is strictly after now, is the earliest such instant after
now, and which was obtained by advancing today's candidate one calendar day in
the target zone before converting back whenever that candidate was not
strictly after now in target-zone wall-clock comparison. -/
theorem calculateNextRunAtUTC_correct (tz : TimezoneConv) (h m now : Int)
    (hh0 : 0 ≤ h) (hh : h < 24) (hm0 : 0 ≤ m) (hm : m < 60)
    (hexact : tz.toZonedTime (calculateNextRunAtUTC tz h m now) = nextRunCandidate tz h m now)
    (hstrict : ∀ a b : Int, a < b → tz.toZonedTime a < tz.toZonedTime b) :
    (tz.toZonedTime (calculateNextRunAtUTC tz h m now)) % minutesPerDay = h * 60 + m ∧
      now < calculateNextRunAtUTC tz h m now ∧
      (∀ t : Int, now < t → t < calculateNextRunAtUTC tz h m now →
        (tz.toZonedTime t) % minutesPerDay ≠ h * 60 + m) ∧
      (setLocalClock (tz.toZonedTime now) h m ≤ tz.toZonedTime now →
        calculateNextRunAtUTC tz h m now =
          tz.fromZonedTime (setLocalClock (tz.toZonedTime now) h m + minutesPerDay)) := by
  have hcand1 : nextRunCandidate tz h m now % minutesPerDay = h * 60 + m := by
    simp only [nextRunCandidate, setLocalClock, minutesPerDay]
    split <;> omega
  have hcand2 : tz.toZonedTime now < nextRunCandidate tz h m now := by
    simp only [nextRunCandidate, setLocalClock, minutesPerDay]
    split <;> omega
  have hcand3 : nextRunCandidate tz h m now ≤ tz.toZonedTime now + minutesPerDay := by
    simp only [nextRunCandidate, setLocalClock, minutesPerDay]
    split <;> omega
  have hmono : ∀ a b : Int, a ≤ b → tz.toZonedTime a ≤ tz.toZonedTime b := by
    intro a b hab
    rcases lt_or_eq_of_le hab with hlt | rfl
    · exact le_of_lt (hstrict a b hlt)
    · exact le_refl _
  refine ⟨?_, ?_, ?_, ?_⟩
  · rw [hexact]
    exact hcand1
  · by_contra hle
    push_neg at hle
    have hmle := hmono _ _ hle
    rw [hexact] at hmle
    omega
  · intro t hnt htr habs
    have h1 : tz.toZonedTime now < tz.toZonedTime t := hstrict _ _ hnt
    have h2 : tz.toZonedTime t < tz.toZonedTime (calculateNextRunAtUTC tz h m now) :=
      hstrict _ _ htr
    rw [hexact] at h2
    simp only [minutesPerDay] at hcand1 hcand3 habs
    omega
  · intro hc
    unfold calculateNextRunAtUTC
    congr 1
    simp only [nextRunCandidate, setLocalClock, minutesPerDay] at hc ⊢
    rw [if_pos hc]

/-- C4 witness: a fixed-offset zone (UTC-5), local time 09:00, now = 1000
minutes after the epoch; the function returns 2280 = 09:00 local of the next
day, the earliest 09:00 after now. -/
theorem calculateNextRunAtUTC_correct_witness :
    (estZone.toZonedTime (calculateNextRunAtUTC estZone 9 0 1000)) % minutesPerDay =
        9 * 60 + 0 ∧
      1000 < calculateNextRunAtUTC estZone 9 0 1000 ∧
      (∀ t : Int, 1000 < t → t < calculateNextRunAtUTC estZone 9 0 1000 →
        (estZone.toZonedTime t) % minutesPerDay ≠ 9 * 60 + 0) ∧
      (setLocalClock (estZone.toZonedTime 1000) 9 0 ≤ estZone.toZonedTime 1000 →
        calculateNextRunAtUTC estZone 9 0 1000 =
          estZone.fromZonedTime (setLocalClock (estZone.toZonedTime 1000) 9 0 + minutesPerDay)) :=
  calculateNextRunAtUTC_correct estZone 9 0 1000 (by decide) (by decide) (by decide)
    (by decide) (by decide) (fun a b hab => by change a - 300 < b - 300; omega)

end Standup
